import Mathlib

set_option maxRecDepth 8192

/-!
Verification of the media upload pipeline and the rich-text converter of
`migrations/utils/create-magazine-post.js`.

The first half embeds `uploadMediaToStrapi` (download / transcode / retry /
cleanup).  The second half embeds `convertContentfulRichTextToStrapi`.
Each definition carries a comment pointing at the source lines it embeds.
-/

namespace Strapi

/-! ### JavaScript string helpers

These model the primitive string operations the source relies on:
`String.prototype.includes`, `trim`, the `/^\s*/` and `/\s*$/` matches and
`substring`.  JS `\s` also covers some Unicode space characters; the inputs
this migration handles are ASCII, so the ASCII whitespace set is used.  -/

/-- Whitespace as matched by the source's `\s` / `trim()` on ASCII input. -/
def jsWs (c : Char) : Bool :=
  c == ' ' || c == '\t' || c == '\n' || c == '\r' || c.val == 11 || c.val == 12

/-- Does `l` start with `pat`?  (models the anchored part of `includes`). -/
def startsWithChars : List Char → List Char → Bool
  | [], _ => true
  | _ :: _, [] => false
  | a :: as, b :: bs => a == b && startsWithChars as bs

/-- Does `hay` contain `needle` as a contiguous run? -/
def hasSubstringChars (needle : List Char) : List Char → Bool
  | [] => needle.isEmpty
  | c :: rest => startsWithChars needle (c :: rest) || hasSubstringChars needle rest

/-- `s.includes(pat)` of JavaScript. -/
def strContains (s pat : String) : Bool :=
  hasSubstringChars pat.data s.data

/-- The leading-whitespace run of `s` (the source's `match(/^\s*/)?.[0] || ''`). -/
def leadingWs (s : String) : String :=
  ⟨s.data.takeWhile jsWs⟩

/-- The trailing-whitespace run of `s` (the source's `match(/\s*$/)?.[0] || ''`). -/
def trailingWs (s : String) : String :=
  ⟨(s.data.reverse.takeWhile jsWs).reverse⟩

/-- JavaScript `s.trim()`. -/
def jsTrim (s : String) : String :=
  ⟨((s.data.dropWhile jsWs).reverse.dropWhile jsWs).reverse⟩

/-! ### Upload timeout (claim C1)

Source, line 928:
`const estimatedUploadTime = Math.min(120000, fileSizeMB > 5 ? 30000 + (fileSizeMB * 3000) : 30000)`.
File sizes are in megabytes and fractional, so they are modelled as `ℚ`. -/

/-- Line 928 of the source: the per-attempt upload timeout in milliseconds. -/
def estimatedUploadTime (fileSizeMB : ℚ) : ℚ :=
  min 120000 (if fileSizeMB > 5 then 30000 + fileSizeMB * 3000 else 30000)

/-- The timeout formula exactly as claim C1 states it:
`min(120000, max(30000, 30000 + 3000 per MB above 5MB))`. -/
def claimUploadTimeout (s : ℚ) : ℚ :=
  min 120000 (max 30000 (30000 + 3000 * (s - 5)))

/-- The amended timeout formula: for sizes above 5MB the source adds 3000ms per
MB of the *whole* size, not per MB above 5MB. -/
def amendedUploadTimeout (s : ℚ) : ℚ :=
  min 120000 (max 30000 (if s > 5 then 30000 + 3000 * s else 30000))

/-! ### Transcode decision (claim C3)

Source, lines 707-774: quality bands and resize thresholds, entered only when
`fileSizeMB >= 1 && contentType.startsWith('image/')`. -/

/-- Lines 710-727 of the source: the compression quality chosen per size band. -/
def compressionQuality (fileSizeMB : ℚ) : ℕ :=
  if fileSizeMB > 10 then 85
  else if 5 ≤ fileSizeMB ∧ fileSizeMB ≤ 10 then 90
  else 95

/-- Lines 745-774 of the source: the bounding box used for resizing, `none`
when no resize is applied. -/
def resizeBox (fileSizeMB : ℚ) (width height : ℕ) : Option ℕ :=
  if fileSizeMB > 10 ∧ (width > 3000 ∨ height > 3000) then some 3000
  else if (5 ≤ fileSizeMB ∧ fileSizeMB ≤ 10) ∧ (width > 4000 ∨ height > 4000) then some 4000
  else if (1 ≤ fileSizeMB ∧ fileSizeMB < 5) ∧ (width > 5000 ∨ height > 5000) then some 5000
  else none

structure TranscodeDecision where
  quality : ℕ
  box : Option ℕ
deriving DecidableEq, Repr

/-- Lines 707-774 of the source: the full transcode decision.  `none` means the
transcode stage is skipped entirely. -/
def transcodeDecision (fileSizeMB : ℚ) (width height : ℕ) (isImage : Bool) : Option TranscodeDecision :=
  if 1 ≤ fileSizeMB ∧ isImage = true then
    some ⟨compressionQuality fileSizeMB, resizeBox fileSizeMB width height⟩
  else none

/-- The four bands exactly as claim C3 states them: the `1MB ≤ S ≤ 5MB` band
(quality 95, resize over 5000px) is closed at 5MB. -/
def claimTranscodeDecision (s : ℚ) (w h : ℕ) (isImage : Bool) : Option TranscodeDecision :=
  if isImage = true ∧ 1 ≤ s then
    if s ≤ 5 then some ⟨95, if w > 5000 ∨ h > 5000 then some 5000 else none⟩
    else if s ≤ 10 then some ⟨90, if w > 4000 ∨ h > 4000 then some 4000 else none⟩
    else some ⟨85, if w > 3000 ∨ h > 3000 then some 3000 else none⟩
  else none

/-- The amended bands: exactly 5MB falls in the quality-90 / 4000px band, so
the bands are `[1,5)`, `[5,10]`, `(10,∞)`. -/
def amendedTranscodeDecision (s : ℚ) (w h : ℕ) (isImage : Bool) : Option TranscodeDecision :=
  if isImage = true ∧ 1 ≤ s then
    if s > 10 then some ⟨85, if w > 3000 ∨ h > 3000 then some 3000 else none⟩
    else if 5 ≤ s then some ⟨90, if w > 4000 ∨ h > 4000 then some 4000 else none⟩
    else some ⟨95, if w > 5000 ∨ h > 5000 then some 5000 else none⟩
  else none

/-! ### Transcode fallback (claim C6)

Source, lines 813-842: the compressed candidate is adopted only when its size
is strictly smaller than the original's. -/

/-- Line 696 / 816 of the source: byte count converted to megabytes. -/
def jsFileSizeMB (bytes : ℕ) : ℚ :=
  (bytes : ℚ) / 1024 / 1024

/-- Lines 818-836 of the source: which file the upload uses after a transcode
produced a candidate of `compressedBytes` bytes. -/
def selectFinalSize (originalBytes compressedBytes : ℕ) : ℕ :=
  if jsFileSizeMB compressedBytes < jsFileSizeMB originalBytes then compressedBytes
  else originalBytes

/-- The byte size finally uploaded: `candidate = none` covers both "no
transcode attempted" and the line-837 compression-failure fallback. -/
def finalUploadSize (originalBytes : ℕ) (candidate : Option ℕ) : ℕ :=
  match candidate with
  | none => originalBytes
  | some c => selectFinalSize originalBytes c

/-! ### Temp-file cleanup (claim C2)

Source, lines 645-646, 703, 826-835, 989-1003 and 1077-1097.  Line 646
declares `let finalFilePath = null` with the comment "Initialize here for
error cleanup"; line 703 declares a *new* `let finalFilePath` inside the
`try` block, so the `catch` block at lines 1077-1092 still sees the outer
binding, which is never reassigned and stays `null`. -/

structure TempFiles where
  tempExists : Bool
  compressedExists : Bool
deriving DecidableEq, Repr

/-- Which of the two temporary files remain on disk when `uploadMediaToStrapi`
returns, as a function of whether the transcode stage ran, whether the
compressed candidate was adopted (strictly smaller), and whether the upload
loop succeeded.  Faithful to the control flow of lines 645-1097, including
the shadowed `finalFilePath`. -/
def uploadTempFileOutcome (compressionAttempted compressedAdopted uploadSucceeded : Bool) :
    TempFiles :=
  -- after the download of lines 667-690 the original temp file exists
  let afterTranscode : TempFiles × Bool :=
    if compressionAttempted then
      if compressedAdopted then
        -- line 820: inner finalFilePath := compressedFilePath; line 828: original deleted
        (⟨false, true⟩, true)
      else
        -- line 833: compressed candidate deleted, inner finalFilePath stays tempFilePath
        (⟨true, false⟩, false)
    else (⟨true, false⟩, false)
  let st := afterTranscode.1
  let innerFinalIsCompressed := afterTranscode.2
  -- line 646: outer finalFilePath; line 703 shadows it, so it is still null in the catch
  let outerFinalFilePath : Option String := none
  if uploadSucceeded then
    -- lines 989-1003: unlink tempFilePath, then the inner finalFilePath when distinct
    { tempExists := false
      compressedExists := if innerFinalIsCompressed then false else st.compressedExists }
  else
    -- lines 1079-1092: unlink tempFilePath; `if (finalFilePath && ...)` reads the
    -- outer binding, which is null, so the second unlink never runs
    { tempExists := false
      compressedExists :=
        match outerFinalFilePath with
        | none => st.compressedExists
        | some _ => false }

/-! ### Retry loop (claims C4, C5)

Source, lines 648-651 and 883-1097.  One upload attempt either gets an HTTP
response (`response.ok` iff the status is in 200..299) or the `fetch` itself
throws.  The thrown error object carries a `name` and a `message`; the
source classifies retryability by substring tests on the message. -/

/-- What the destination endpoint does on one attempt. -/
inductive AttemptEvent where
  | httpResponse (status : ℕ) (errorText : String) (ids : List ℕ)
  | netError (name message : String)

/-- Line 649 of the source. -/
def maxRetries : ℕ := 3

/-- Line 650 of the source. -/
def baseDelayMs : ℕ := 3000

/-- Line 651 of the source. -/
def maxDelayMs : ℕ := 30000

/-- Lines 966 / 1028 / 1067 of the source:
`Math.min(maxDelayMs, baseDelayMs * Math.pow(2, attempt - 1))`. -/
def backoffDelay (attempt : ℕ) : ℕ :=
  min maxDelayMs (baseDelayMs * 2 ^ (attempt - 1))

/-- Line 973 of the source: the message of the error thrown for a non-OK
HTTP response, `Strapi upload error (status): errorText.substring(0,200)`. -/
def httpErrMsg (status : ℕ) (errorText : String) : String :=
  "Strapi upload error (" ++ toString status ++ "): " ++ errorText.take 200

/-- Outcome of running one attempt through all the catch layers. -/
inductive StepResult where
  | success (uploadedId : ℕ)
  | retryAfter (delay : ℕ)
  | failure (name message : String)
deriving DecidableEq, Repr

/-- Lines 1042-1072 of the source: the outer catch of the attempt loop. -/
def outerCatchStep (attempt : ℕ) (name message : String) : StepResult :=
  let isRetryable :=
    !(message == "") &&
      (strContains message "504" || strContains message "503" || strContains message "502" ||
       strContains message "ECONNRESET" || strContains message "ETIMEDOUT" ||
       strContains message "timeout" || name == "AbortError")
  if attempt ≥ maxRetries || !isRetryable then .failure name message
  else .retryAfter (backoffDelay attempt)

/-- Lines 1010-1041 of the source: the inner catch around the `fetch`. -/
def innerCatchStep (attempt : ℕ) (name message : String) : StepResult :=
  let isTimeout := name == "AbortError" || strContains message "aborted"
  let isRetryable :=
    isTimeout ||
      (!(message == "") &&
        (strContains message "504" || strContains message "503" || strContains message "502" ||
         strContains message "ECONNRESET" || strContains message "ETIMEDOUT"))
  if isRetryable && attempt < maxRetries then .retryAfter (backoffDelay attempt)
  else outerCatchStep attempt name message

/-- Lines 938-1072 of the source: one full attempt.  A non-OK response is
retried directly when `status >= 500 || status == 504 || status == 503` and
the attempt is not the last (lines 962-971); otherwise the thrown error flows
through the inner and outer catches.  An OK response with an empty body
throws `Upload response empty or invalid` (line 1009). -/
def attemptStep (attempt : ℕ) (ev : AttemptEvent) : StepResult :=
  match ev with
  | .httpResponse status errorText ids =>
    if 200 ≤ status ∧ status < 300 then
      match ids with
      | [] => innerCatchStep attempt "Error" "Upload response empty or invalid"
      | uploadedId :: _ => .success uploadedId
    else
      if (500 ≤ status ∨ status = 504 ∨ status = 503) ∧ attempt < maxRetries then
        .retryAfter (backoffDelay attempt)
      else innerCatchStep attempt "Error" (httpErrMsg status errorText)
  | .netError name message => innerCatchStep attempt name message

/-- The observable outcome of the whole retry loop: the returned value
(`none` is the function's `return null`), the backoff sleeps performed, in
order, and the number of attempts made. -/
structure UploadOutcome where
  result : Option ℕ
  sleeps : List ℕ
  attemptsMade : ℕ
deriving DecidableEq, Repr

/-- Lines 883-1097 of the source: the attempt loop, with the function-level
catch folded in (a `throw` out of the loop reaches line 1077 and the function
returns `null`).  The fuel counts remaining loop iterations. -/
def runAttempts (events : ℕ → AttemptEvent) : ℕ → ℕ → UploadOutcome
  | _, 0 => ⟨none, [], maxRetries⟩
  | attempt, fuel + 1 =>
    match attemptStep attempt (events attempt) with
    | .success uploadedId => ⟨some uploadedId, [], attempt⟩
    | .failure _ _ => ⟨none, [], attempt⟩
    | .retryAfter d =>
      let rest := runAttempts events (attempt + 1) fuel
      ⟨rest.result, d :: rest.sleeps, rest.attemptsMade⟩

/-- The retry portion of `uploadMediaToStrapi`, driven by what the endpoint
does on each attempt. -/
def uploadRetryOutcome (events : ℕ → AttemptEvent) : UploadOutcome :=
  runAttempts events 1 maxRetries

/-! ### Rich-text converter: data model

Source, lines 1441-1740.  `convertContentfulRichTextToStrapi` walks nodes
discriminated by `nodeType`; fields that the source reads through `?.` or
`|| <default>` are modelled as `Option`. -/

/-- An inline mark on a Contentful text node (`child.marks[i].type`). -/
inductive Mark where
  | bold
  | italic
  | code
  | unknown (t : String)
deriving DecidableEq, Repr

/-- A Contentful rich-text node.  `heading n` stands for nodeType
`heading-n`; `other` covers every nodeType the converter does not handle. -/
inductive RTNode where
  | document (content : Option (List RTNode))
  | paragraph (content : Option (List RTNode))
  | heading (level : ℕ) (content : Option (List RTNode))
  | text (value : Option String) (marks : Option (List Mark))
  | hyperlink (content : Option (List RTNode)) (uri : Option String)
  | embedded (assetId : Option String)
  | unorderedList (content : Option (List RTNode))
  | orderedList (content : Option (List RTNode))
  | listItem (content : Option (List RTNode))
  | blockquote (content : Option (List RTNode))
  | other (nodeType : String)
deriving Repr

/-- One entry of `strapiAssetMap`: `{id, url, fileName}`; an absent `url` or
`fileName` is the falsy empty string. -/
structure AssetInfo where
  id : ℕ
  url : String
  fileName : String
deriving DecidableEq, Repr

/-- The `strapiAssetMap[assetId]` lookup. -/
def lookupAsset (map : List (String × AssetInfo)) (assetId : String) : Option AssetInfo :=
  (map.find? (fun p => p.1 == assetId)).map (fun p => p.2)

/-! ### Rich-text converter: inline formatting -/

/-- Lines 1483 / 1555 / 1631 / 1686 of the source: the comparator key of the
mark sort, bold 1, italic 2, code 3, anything else 99. -/
def markOrder : Mark → ℕ
  | .bold => 1
  | .italic => 2
  | .code => 3
  | .unknown _ => 99

/-- Stable insertion used to model the (stable) `Array.prototype.sort`. -/
def insertMark (m : Mark) : List Mark → List Mark
  | [] => [m]
  | x :: xs => if markOrder x ≤ markOrder m then x :: insertMark m xs else m :: x :: xs

/-- The source's `[...marks].sort((a, b) => order[a.type] - order[b.type])`. -/
def sortMarks (ms : List Mark) : List Mark :=
  ms.foldl (fun acc m => insertMark m acc) []

/-- Lines 1488-1498 of the source: wrap the running text in one mark's
delimiters, trimming whatever is currently inside. -/
def applyMark (acc : String) : Mark → String
  | .bold => "**" ++ jsTrim acc ++ "**"
  | .italic => "*" ++ jsTrim acc ++ "*"
  | .code => "`" ++ jsTrim acc ++ "`"
  | .unknown _ => acc

/-- Sort the marks and fold the delimiters around `t`. -/
def applyMarks (ms : List Mark) (t : String) : String :=
  (sortMarks ms).foldl applyMark t

/-! ### Rich-text converter: the regex cleanups

The paragraph path runs `replace(/\*\* +([^*]+?) +\*\*/g, ...)`, then the
italic variant with lookarounds, then `replace(/\s{2,}/g, ' ')`; the heading,
list and blockquote paths use the lookaround-free italic pattern and
`replace(/\s+/g, ' ')`.  The matchers below implement exactly the JS
backtracking order: the space runs are greedy, the `[^*]+?` group is lazy. -/

/-- First `some` among `f` applied to the candidates, in order. -/
def firstSome {α β : Type} (f : α → Option β) : List α → Option β
  | [] => none
  | a :: as =>
    match f a with
    | some b => some b
    | none => firstSome f as

/-- Candidate lengths for a greedy `+` run: `n, n-1, ..., 1`. -/
def greedyLens (n : ℕ) : List ℕ := (List.range' 1 n).reverse

/-- Candidate lengths for a lazy `+?` group: `1, 2, ..., n`. -/
def lazyLens (n : ℕ) : List ℕ := List.range' 1 n

/-- Try to match `\*\* +([^*]+?) +\*\*` at the head of the list; returns the
captured group and the remainder after the match. -/
def matchBoldAt : List Char → Option (List Char × List Char)
  | '*' :: '*' :: rest =>
    firstSome (fun a =>
      let afterA := rest.drop a
      firstSome (fun b =>
        let group := afterA.take b
        let afterB := afterA.drop b
        firstSome (fun cl =>
          match afterB.drop cl with
          | '*' :: '*' :: tail => some (group, tail)
          | _ => none)
          (greedyLens (afterB.takeWhile (fun c => c == ' ')).length))
        (lazyLens (afterA.takeWhile (fun c => !(c == '*'))).length))
      (greedyLens (rest.takeWhile (fun c => c == ' ')).length)
  | _ => none

/-- Try to match the italic pattern at the head of the list; when
`lookaround` is set this is `(?<!\*)\* +([^*]+?) +\*(?!\*)` (the paragraph
variant), otherwise `\* +([^*]+?) +\*`.  `prev` is the character before the
match position in the original string. -/
def matchItalicAt (lookaround : Bool) (prev : Option Char) : List Char → Option (List Char × List Char)
  | '*' :: rest =>
    if lookaround && prev == some '*' then none
    else
      firstSome (fun a =>
        let afterA := rest.drop a
        firstSome (fun b =>
          let group := afterA.take b
          let afterB := afterA.drop b
          firstSome (fun cl =>
            match afterB.drop cl with
            | '*' :: tail =>
              if lookaround && tail.head? == some '*' then none
              else some (group, tail)
            | _ => none)
            (greedyLens (afterB.takeWhile (fun c => c == ' ')).length))
          (lazyLens (afterA.takeWhile (fun c => !(c == '*'))).length))
        (greedyLens (rest.takeWhile (fun c => c == ' ')).length)
  | _ => none

/-- Global-replace scan for the bold pattern, replacement `**$1**`.  A match
consumes at least seven characters, so length-many fuel never runs out. -/
def goBold : ℕ → List Char → List Char
  | 0, l => l
  | _ + 1, [] => []
  | fuel + 1, c :: cs =>
    match matchBoldAt (c :: cs) with
    | some (group, rest) => '*' :: '*' :: (group ++ '*' :: '*' :: goBold fuel rest)
    | none => c :: goBold fuel cs

/-- `paragraphContent.replace(/\*\* +([^*]+?) +\*\*/g, '**$1**')`. -/
def applyBoldFix (s : String) : String :=
  ⟨goBold s.data.length s.data⟩

/-- Global-replace scan for the italic pattern, replacement `*$1*`. -/
def goItalic (lookaround : Bool) : ℕ → Option Char → List Char → List Char
  | 0, _, l => l
  | _ + 1, _, [] => []
  | fuel + 1, prev, c :: cs =>
    match matchItalicAt lookaround prev (c :: cs) with
    | some (group, rest) => '*' :: (group ++ '*' :: goItalic lookaround fuel (some '*') rest)
    | none => c :: goItalic lookaround fuel (some c) cs

/-- The italic replace; `lookaround := true` for the paragraph variant of
line 1521, `false` for the plain variant of lines 1589/1662/1717. -/
def applyItalicFix (lookaround : Bool) (s : String) : String :=
  ⟨goItalic lookaround s.data.length none s.data⟩

/-- Whitespace-collapsing scan shared by the two replace flavours: a run of
length at least `minRun` becomes a single space, shorter runs pass through. -/
def goCollapse (minRun : ℕ) : ℕ → List Char → List Char
  | 0, l => l
  | _ + 1, [] => []
  | fuel + 1, c :: cs =>
    if jsWs c then
      let run := c :: cs.takeWhile jsWs
      let rest := cs.dropWhile jsWs
      (if run.length ≥ minRun then [' '] else run) ++ goCollapse minRun fuel rest
    else c :: goCollapse minRun fuel cs

/-- `replace(/\s{2,}/g, ' ')` (paragraph path, line 1524). -/
def collapseWsRuns (s : String) : String :=
  ⟨goCollapse 2 s.data.length s.data⟩

/-- `replace(/\s+/g, ' ')` (heading / list / blockquote paths). -/
def collapseAllWs (s : String) : String :=
  ⟨goCollapse 1 s.data.length s.data⟩

/-! ### Rich-text converter: per-node rendering -/

/-- The `value` of a node, `undefined` for non-text nodes. -/
def nodeValue : RTNode → Option String
  | .text v _ => v
  | _ => none

/-- The source's `child.content?.[0]?.value` read. -/
def firstContentValue (content : Option (List RTNode)) : Option String :=
  match content with
  | some (first :: _) => nodeValue first
  | _ => none

/-- Lines 1460-1509 of the source: the string one paragraph child pushes onto
`paragraphText`, `none` when the child is skipped. -/
def paragraphChildPiece : RTNode → Option String
  | .text value marks =>
    let originalText := (value).getD ""
    let leading := leadingWs originalText
    let trailing := trailingWs originalText
    let trimmed := jsTrim originalText
    if trimmed == "" && leading == "" && trailing == "" then none
    else if trimmed == "" then some " "
    else some (leading ++ applyMarks ((marks).getD []) trimmed ++ trailing)
  | .hyperlink content uri =>
    let linkText := jsTrim ((firstContentValue content).getD "")
    let linkUrl := (uri).getD ""
    if !(linkText == "") && !(linkUrl == "") then
      some ("[" ++ linkText ++ "](" ++ linkUrl ++ ")")
    else none
  | _ => none

/-- JavaScript `Array.prototype.join`. -/
def joinSep (sep : String) : List String → String
  | [] => ""
  | [s] => s
  | s :: rest => s ++ sep ++ joinSep sep rest

/-- Lines 1457-1530 of the source: the line a paragraph node emits, if any. -/
def renderParagraph (content : Option (List RTNode)) : Option String :=
  let pieces := ((content).getD []).filterMap paragraphChildPiece
  if pieces.isEmpty then none
  else
    let joined := String.join pieces
    let fixed := applyItalicFix true (applyBoldFix joined)
    let cleaned := jsTrim (collapseWsRuns fixed)
    if cleaned == "" then none else some cleaned

/-- Lines 1545-1582 of the source: the string one heading child contributes. -/
def headingChildPiece : RTNode → Option String
  | .text value marks =>
    let t := jsTrim ((value).getD "")
    if t == "" then none
    else
      let ms := (marks).getD []
      if ms.isEmpty then some t else some (applyMarks ms t)
  | .hyperlink content uri =>
    let linkText :=
      match content with
      | some (first :: _) => jsTrim ((nodeValue first).getD "")
      | _ => ""
    let linkUrl := (uri).getD ""
    if !(linkText == "") && !(linkUrl == "") then
      some ("[" ++ linkText ++ "](" ++ linkUrl ++ ")")
    else if !(linkUrl == "") && linkText == "" then
      some ("[" ++ linkUrl ++ "](" ++ linkUrl ++ ")")
    else none
  | _ => none

/-- Lines 1532-1593 of the source: the line a heading node emits.  Levels
above 4 clamp to 4. -/
def renderHeading (level : ℕ) (content : Option (List RTNode)) : Option String :=
  let lv := if level > 4 then 4 else level
  let parts := ((content).getD []).filterMap headingChildPiece
  if parts.isEmpty then none
  else
    let s0 := joinSep " " parts
    let s1 := applyItalicFix false (applyBoldFix s0)
    let s2 := jsTrim (collapseAllWs s1)
    some (String.mk (List.replicate lv '#') ++ " " ++ s2)

/-- Lines 1622-1654 / 1677-1709 of the source: the string one text-or-link
child contributes inside a list item or blockquote paragraph. -/
def inlineTextPiece : RTNode → Option String
  | .text value marks =>
    let t := jsTrim ((value).getD "")
    if t == "" then none
    else
      let ms := (marks).getD []
      if ms.isEmpty then some t else some (applyMarks ms t)
  | .hyperlink content uri =>
    let linkText := jsTrim ((firstContentValue content).getD "")
    let linkUrl := (uri).getD ""
    if !(linkText == "") && !(linkUrl == "") then
      some ("[" ++ linkText ++ "](" ++ linkUrl ++ ")")
    else none
  | _ => none

/-- Lines 1618-1656 of the source: the processed body of one list item,
`none` when nothing renders (so the item emits no line). -/
def listItemBody : RTNode → Option String
  | .listItem (some content) =>
    let parts := content.flatMap (fun para =>
      match para with
      | .paragraph (some pcontent) => pcontent.filterMap inlineTextPiece
      | _ => [])
    if parts.isEmpty then none
    else
      let s0 := joinSep " " parts
      let s1 := applyItalicFix false (applyBoldFix s0)
      some (jsTrim (collapseAllWs s1))
  | _ => none

/-- The `N. ` prefix of an ordered-list line. -/
def orderedPrefix (n : ℕ) : String := toString n ++ ". "

/-- Lines 1614-1668 of the source: walk the list items with the
`listCounter`, which increments only when a line is actually pushed. -/
def renderListItems (isOrdered : Bool) : List RTNode → ℕ → List String
  | [], _ => []
  | item :: rest, counter =>
    match listItemBody item with
    | some body =>
      ((if isOrdered then orderedPrefix counter else "- ") ++ body)
        :: renderListItems isOrdered rest (if isOrdered then counter + 1 else counter)
    | none => renderListItems isOrdered rest counter

/-- Lines 1612-1670 of the source: the lines a list node emits; the counter
restarts at 1 per list. -/
def renderList (isOrdered : Bool) (content : Option (List RTNode)) : List String :=
  renderListItems isOrdered ((content).getD []) 1

/-- Lines 1672-1721 of the source: the line a blockquote node emits. -/
def renderBlockquote (content : Option (List RTNode)) : Option String :=
  let parts := ((content).getD []).flatMap (fun para =>
    match para with
    | .paragraph (some pcontent) => pcontent.filterMap inlineTextPiece
    | _ => [])
  if parts.isEmpty then none
  else
    let s0 := joinSep " " parts
    let s1 := applyItalicFix false (applyBoldFix s0)
    some ("> " ++ jsTrim (collapseAllWs s1))

/-- Lines 1723-1731 of the source: a standalone hyperlink node; note the link
text is not trimmed here. -/
def renderStandaloneLink (content : Option (List RTNode)) (uri : Option String) : Option String :=
  let linkText := (firstContentValue content).getD ""
  let linkUrl := (uri).getD ""
  if !(linkText == "") && !(linkUrl == "") then
    some ("[" ++ linkText ++ "](" ++ linkUrl ++ ")")
  else none

/-- Lines 1595-1610 of the source: an embedded-asset block emits
`![fileName](url)` only when the asset id resolves to an entry with a
non-empty url; otherwise it emits nothing (a diagnostic is logged). -/
def renderEmbeddedAsset (map : List (String × AssetInfo)) (assetId : Option String) : List String :=
  match assetId with
  | none => []
  | some aid =>
    match lookupAsset map aid with
    | none => []
    | some info =>
      let fileName := if info.fileName == "" then "image-" ++ toString info.id else info.fileName
      if info.url == "" then [] else ["![" ++ fileName ++ "](" ++ info.url ++ ")"]

mutual

/-- Lines 1448-1736 of the source: the `processNode` switch.  Only the
`document` arm recurses; every unhandled nodeType (the `default` arm, which
also receives stray `text` and `list-item` nodes) emits nothing. -/
def processNode (map : List (String × AssetInfo)) : RTNode → List String
  | .document none => []
  | .document (some content) => processChildren map content
  | .paragraph content => (renderParagraph content).toList
  | .heading level content => (renderHeading level content).toList
  | .embedded assetId => renderEmbeddedAsset map assetId
  | .unorderedList content => renderList false content
  | .orderedList content => renderList true content
  | .blockquote content => (renderBlockquote content).toList
  | .hyperlink content uri => (renderStandaloneLink content uri).toList
  | .text _ _ => []
  | .listItem _ => []
  | .other _ => []

/-- `node.content.forEach(child => processNode(child))` of the document arm. -/
def processChildren (map : List (String × AssetInfo)) : List RTNode → List String
  | [] => []
  | n :: rest => processNode map n ++ processChildren map rest

end

/-- The `node.content` property read by the line-1442 guard (JS truthiness:
an array, even empty, is truthy; `undefined` is falsy). -/
def nodeContent : RTNode → Option (List RTNode)
  | .document c => c
  | .paragraph c => c
  | .heading _ c => c
  | .hyperlink c _ => c
  | .unorderedList c => c
  | .orderedList c => c
  | .listItem c => c
  | .blockquote c => c
  | .text _ _ => none
  | .embedded _ => none
  | .other _ => none

/-- Lines 1441-1740 of the source: the whole converter.  `input = none`
models a null or undefined argument. -/
def convertContentfulRichTextToStrapi (input : Option RTNode)
    (map : List (String × AssetInfo)) : String :=
  match input with
  | none => ""
  | some root =>
    match nodeContent root with
    | none => ""
    | some _ => joinSep "\n\n" (processNode map root)

/-! ## Theorems -/

/-- C1 counterexample: at a 6MB file the source computes a 48000ms timeout
(`min(120000, 30000 + 6*3000)`), while the claimed formula
`min(120000, max(30000, 30000 + 3000*(6-5)))` gives 33000ms. -/
theorem c1_timeout_counterexample :
    estimatedUploadTime 6 ≠ claimUploadTimeout 6 := by
  unfold estimatedUploadTime claimUploadTimeout
  norm_num [min_def, max_def]

/-- C1 (amended): the per-attempt upload timeout is 30000ms for sizes of at
most 5MB, and `min(120000ms, 30000ms + 3000ms per MB of the whole size)` for
sizes above 5MB — i.e. the source adds 3000ms per MB of the total size, not
per MB above 5MB. -/
theorem c1_upload_timeout (s : ℚ) :
    estimatedUploadTime s = amendedUploadTimeout s ∧
    (s ≤ 5 → estimatedUploadTime s = 30000) := by
  constructor
  · unfold estimatedUploadTime amendedUploadTimeout
    by_cases h : s > 5
    · have h0 : (30000 : ℚ) ≤ 30000 + 3000 * s := by nlinarith
      simp only [h, if_true, max_eq_right h0]
      ring_nf
    · simp only [h, if_false, max_self]
  · intro h5
    have h : ¬ s > 5 := by linarith
    unfold estimatedUploadTime
    simp only [h, if_false]
    exact min_eq_right (by norm_num)

/-- C1 witness: the amended statement at the concrete size 3MB. -/
theorem c1_upload_timeout_witness :
    estimatedUploadTime 3 = amendedUploadTimeout 3 ∧ estimatedUploadTime 3 = 30000 :=
  ⟨(c1_upload_timeout 3).1, (c1_upload_timeout 3).2 (by norm_num)⟩

/-- C2: when the transcode stage adopted a strictly-smaller compressed copy
and the upload then fails terminally, the compressed temporary file is *not*
deleted — the catch block's `finalFilePath` is the outer, never-assigned
binding of line 646 (line 703 shadows it), so the cleanup at lines 1086-1092
is skipped.  On the success path both files are deleted, as the claim says. -/
theorem c2_transcoded_copy_leak :
    uploadTempFileOutcome true true false = ⟨false, true⟩ ∧
    uploadTempFileOutcome true true true = ⟨false, false⟩ ∧
    uploadTempFileOutcome false false false = ⟨false, false⟩ := by
  refine ⟨rfl, rfl, rfl⟩

/-- C3 counterexample: at exactly 5MB (with a 5500px wide image) the source
selects quality 90 and a 4000px bounding box, while the claim's bands put a
5MB file in the quality-95 / 5000px band. -/
theorem c3_bands_counterexample :
    transcodeDecision 5 5500 100 true ≠ claimTranscodeDecision 5 5500 100 true := by
  unfold transcodeDecision claimTranscodeDecision compressionQuality resizeBox
  norm_num

/-- C3 (amended): the transcode decision has exactly four bands, with the
boundary file size of exactly 5MB falling in the quality-90 / 4000px band:
below 1MB no transcoding; `[1,5)`MB quality 95, resize iff a dimension
exceeds 5000px; `[5,10]`MB quality 90, resize iff a dimension exceeds
4000px; above 10MB quality 85, resize iff a dimension exceeds 3000px. -/
theorem c3_transcode_bands (s : ℚ) (w h : ℕ) (b : Bool) :
    transcodeDecision s w h b = amendedTranscodeDecision s w h b := by
  rcases b with _ | _
  · simp [transcodeDecision, amendedTranscodeDecision]
  · by_cases h1 : 1 ≤ s
    · by_cases h10 : s > 10
      · have hn5 : ¬ (5 ≤ s ∧ s ≤ 10) := by rintro ⟨_, hc⟩; linarith
        have hn15 : ¬ s < 5 := by linarith
        simp [transcodeDecision, amendedTranscodeDecision, compressionQuality, resizeBox,
          h1, h10, hn5, hn15]
      · by_cases h5 : 5 ≤ s
        · have hle : s ≤ 10 := not_lt.mp h10
          have hn15 : ¬ s < 5 := by linarith
          simp [transcodeDecision, amendedTranscodeDecision, compressionQuality, resizeBox,
            h1, h10, h5, hle, hn15]
        · have hlt : s < 5 := not_le.mp h5
          have hn5 : ¬ (5 ≤ s ∧ s ≤ 10) := by rintro ⟨hc, _⟩; linarith
          simp [transcodeDecision, amendedTranscodeDecision, compressionQuality, resizeBox,
            h1, h10, h5, hlt, hn5]
    · simp [transcodeDecision, amendedTranscodeDecision, h1]

/-- C6: a transcoded candidate that is not strictly smaller than the original
is discarded in favour of the original, and consequently the uploaded byte
size never exceeds the original byte size. -/
theorem c6_transcode_fallback :
    (∀ o c : ℕ, o ≤ c → selectFinalSize o c = o) ∧
    (∀ (o : ℕ) (cand : Option ℕ), finalUploadSize o cand ≤ o) := by
  have key : ∀ o c : ℕ, jsFileSizeMB c < jsFileSizeMB o → c < o := by
    intro o c hlt
    unfold jsFileSizeMB at hlt
    have : (c : ℚ) < (o : ℚ) := by linarith
    exact_mod_cast this
  constructor
  · intro o c hoc
    unfold selectFinalSize
    rw [if_neg]
    intro hlt
    exact absurd hoc (not_le.mpr (key o c hlt))
  · intro o cand
    match cand with
    | none => exact le_refl o
    | some c =>
      show selectFinalSize o c ≤ o
      unfold selectFinalSize
      split
      · next hlt => exact le_of_lt (key o c hlt)
      · exact le_refl o

/-- C6 witness: the fallback and the size bound at concrete byte counts. -/
theorem c6_transcode_fallback_witness :
    selectFinalSize 100 150 = 100 ∧ finalUploadSize 100 (some 150) ≤ 100 :=
  ⟨c6_transcode_fallback.1 100 150 (by norm_num), c6_transcode_fallback.2 100 (some 150)⟩

/-- C9: the converter returns the empty string for a null/undefined input and
for any root whose `content` property is absent, without failing. -/
theorem c9_absent_document :
    (∀ map, convertContentfulRichTextToStrapi none map = "") ∧
    (∀ root map, nodeContent root = none →
      convertContentfulRichTextToStrapi (some root) map = "") := by
  constructor
  · intro map; rfl
  · intro root map h
    simp [convertContentfulRichTextToStrapi, h]

/-- C9 witness: a root with no content array converts to the empty string. -/
theorem c9_absent_document_witness :
    convertContentfulRichTextToStrapi (some (RTNode.text none none)) [] = "" :=
  c9_absent_document.2 (RTNode.text none none) [] rfl

/-! ### Substring helper lemmas for the retry classification -/

lemma startsWithChars_append (n l l' : List Char) (h : startsWithChars n l = true) :
    startsWithChars n (l ++ l') = true := by
  induction n generalizing l with
  | nil => rfl
  | cons a as ih =>
    match l with
    | [] => simp [startsWithChars] at h
    | b :: bs =>
      simp only [startsWithChars, Bool.and_eq_true] at h
      simp only [List.cons_append, startsWithChars, Bool.and_eq_true]
      exact ⟨h.1, ih bs h.2⟩

lemma hasSubstringChars_append_left (n l l' : List Char)
    (h : hasSubstringChars n l = true) : hasSubstringChars n (l ++ l') = true := by
  induction l with
  | nil =>
    simp only [hasSubstringChars, List.isEmpty_iff] at h
    subst h
    match l' with
    | [] => rfl
    | c :: cs =>
      simp [hasSubstringChars, startsWithChars]
  | cons c cs ih =>
    simp only [hasSubstringChars, Bool.or_eq_true] at h
    rcases h with h | h
    · simp only [List.cons_append, hasSubstringChars, Bool.or_eq_true]
      exact Or.inl (startsWithChars_append n (c :: cs) l' h)
    · simp only [List.cons_append, hasSubstringChars, Bool.or_eq_true]
      exact Or.inr (ih h)

lemma string_data_append (s t : String) : (s ++ t).data = s.data ++ t.data := rfl

lemma strContains_append_left (s t pat : String) (h : strContains s pat = true) :
    strContains (s ++ t) pat = true := by
  unfold strContains at *
  rw [string_data_append]
  exact hasSubstringChars_append_left pat.data s.data t.data h

lemma beq_empty_of_data_ne (s : String) (h : s.data ≠ []) : (s == "") = false := by
  cases hbe : s == ""
  · rfl
  · exact absurd (congrArg String.data (eq_of_beq hbe)) h

lemma httpErrMsg_data_ne (status : ℕ) (t : String) : (httpErrMsg status t).data ≠ [] := by
  unfold httpErrMsg
  rw [string_data_append, string_data_append, string_data_append]
  intro hcontra
  have : ("Strapi upload error (" : String).data = [] := by
    have := List.append_eq_nil.mp (List.append_eq_nil.mp (List.append_eq_nil.mp hcontra).1).1
    exact this.1
  simp at this

/-- The error message built for a 503 response always contains `"503"`. -/
lemma strContains_httpErrMsg_503 (t : String) :
    strContains (httpErrMsg 503 t) "503" = true := by
  unfold httpErrMsg
  exact strContains_append_left ("Strapi upload error (" ++ toString 503 ++ "): ")
    (t.take 200) "503" (by decide)

/-- C4: when every attempt yields HTTP 503, the loop makes exactly three
attempts (never a fourth), sleeps 3000ms after the first failure and 6000ms
after the second (the `min(30000, 3000*2^(k-1))` backoff, with no sleep after
the terminal third attempt), and the function returns null rather than
raising. -/
theorem c4_retry_exhaustion (t : String) :
    uploadRetryOutcome (fun _ => .httpResponse 503 t []) =
      ⟨none, [3000, 6000], 3⟩ := by
  have hmsg : (httpErrMsg 503 t == "") = false :=
    beq_empty_of_data_ne _ (httpErrMsg_data_ne 503 t)
  have h503 := strContains_httpErrMsg_503 t
  have hnotok : ¬ (200 ≤ 503 ∧ 503 < 300) := by omega
  have s1 : attemptStep 1 (.httpResponse 503 t []) = .retryAfter 3000 := by
    simp [attemptStep, hnotok, maxRetries, backoffDelay, baseDelayMs, maxDelayMs]
  have s2 : attemptStep 2 (.httpResponse 503 t []) = .retryAfter 6000 := by
    simp [attemptStep, hnotok, maxRetries, backoffDelay, baseDelayMs, maxDelayMs]
  have s3 : attemptStep 3 (.httpResponse 503 t []) =
      .failure "Error" (httpErrMsg 503 t) := by
    simp [attemptStep, hnotok, maxRetries, innerCatchStep, outerCatchStep,
      h503, hmsg]
  simp [uploadRetryOutcome, maxRetries, runAttempts, s1, s2, s3]

/-- Every retry decision of the inner catch traces back to an abort, or to
one of the substrings the source greps the message for. -/
lemma innerCatchStep_retry_classify (attempt : ℕ) (name msg : String) (d : ℕ)
    (h : innerCatchStep attempt name msg = .retryAfter d) :
    (name == "AbortError") = true ∨ strContains msg "aborted" = true ∨
    strContains msg "504" = true ∨ strContains msg "503" = true ∨
    strContains msg "502" = true ∨ strContains msg "ECONNRESET" = true ∨
    strContains msg "ETIMEDOUT" = true ∨ strContains msg "timeout" = true := by
  simp only [innerCatchStep] at h
  split at h
  · next hcond =>
    simp only [Bool.and_eq_true, Bool.or_eq_true, decide_eq_true_eq,
      Bool.not_eq_true', beq_eq_false_iff_ne] at hcond
    tauto
  · simp only [outerCatchStep] at h
    split at h
    · exact absurd h (by simp)
    · next hcond =>
      rw [Bool.not_eq_true, Bool.or_eq_false_iff] at hcond
      have hr : (!(msg == "") &&
          (strContains msg "504" || strContains msg "503" || strContains msg "502" ||
           strContains msg "ECONNRESET" || strContains msg "ETIMEDOUT" ||
           strContains msg "timeout" || name == "AbortError")) = true :=
        (Bool.not_eq_false' _) ▸ hcond.2
      simp only [Bool.and_eq_true, Bool.or_eq_true] at hr
      tauto

/-- C5 (amended): a first attempt failing with HTTP 400 whose composed error
message contains none of the substrings the source greps for causes no
retry, no backoff sleep, and an immediate null; and an upload attempt is
retried only when the HTTP status is at least 500, or the error's name/
message matches the abort/timeout/connection-reset/5xx-substring
classification. -/
theorem c5_terminal_400 :
    (∀ (events : ℕ → AttemptEvent) (t : String),
      events 1 = .httpResponse 400 t [] →
      strContains (httpErrMsg 400 t) "504" = false →
      strContains (httpErrMsg 400 t) "503" = false →
      strContains (httpErrMsg 400 t) "502" = false →
      strContains (httpErrMsg 400 t) "ECONNRESET" = false →
      strContains (httpErrMsg 400 t) "ETIMEDOUT" = false →
      strContains (httpErrMsg 400 t) "aborted" = false →
      strContains (httpErrMsg 400 t) "timeout" = false →
      uploadRetryOutcome events = ⟨none, [], 1⟩) ∧
    (∀ (attempt status : ℕ) (t : String) (d : ℕ), ¬ (200 ≤ status ∧ status < 300) →
      attemptStep attempt (.httpResponse status t []) = .retryAfter d →
      500 ≤ status ∨ strContains (httpErrMsg status t) "504" = true ∨
      strContains (httpErrMsg status t) "503" = true ∨
      strContains (httpErrMsg status t) "502" = true ∨
      strContains (httpErrMsg status t) "ECONNRESET" = true ∨
      strContains (httpErrMsg status t) "ETIMEDOUT" = true ∨
      strContains (httpErrMsg status t) "aborted" = true ∨
      strContains (httpErrMsg status t) "timeout" = true) ∧
    (∀ (attempt : ℕ) (name msg : String) (d : ℕ),
      attemptStep attempt (.netError name msg) = .retryAfter d →
      name = "AbortError" ∨ strContains msg "aborted" = true ∨
      strContains msg "504" = true ∨ strContains msg "503" = true ∨
      strContains msg "502" = true ∨ strContains msg "ECONNRESET" = true ∨
      strContains msg "ETIMEDOUT" = true ∨ strContains msg "timeout" = true) := by
  refine ⟨?_, ?_, ?_⟩
  · intro events t hev h504 h503 h502 hrst htmd habort htime
    have hnotok : ¬ (200 ≤ 400 ∧ 400 < 300) := by omega
    have hnr : ¬ ((500 ≤ 400 ∨ 400 = 504 ∨ 400 = 503)) := by omega
    have s1 : attemptStep 1 (.httpResponse 400 t []) =
        .failure "Error" (httpErrMsg 400 t) := by
      simp [attemptStep, hnotok, hnr, innerCatchStep, outerCatchStep, maxRetries,
        h504, h503, h502, hrst, htmd, habort, htime]
    simp [uploadRetryOutcome, maxRetries, runAttempts, hev, s1]
  · intro attempt status t d hnotok hstep
    simp only [attemptStep] at hstep
    rw [if_neg hnotok] at hstep
    split at hstep
    · next hcond => exact Or.inl (by omega)
    · have := innerCatchStep_retry_classify attempt "Error" (httpErrMsg status t) d hstep
      rcases this with h | h
      · exact absurd h (by decide)
      · rcases h with h | h
        · exact Or.inr (Or.inr (Or.inr (Or.inr (Or.inr (Or.inr (Or.inl h))))))
        rcases h with h | h
        · exact Or.inr (Or.inl h)
        rcases h with h | h
        · exact Or.inr (Or.inr (Or.inl h))
        rcases h with h | h
        · exact Or.inr (Or.inr (Or.inr (Or.inl h)))
        rcases h with h | h
        · exact Or.inr (Or.inr (Or.inr (Or.inr (Or.inl h))))
        rcases h with h | h
        · exact Or.inr (Or.inr (Or.inr (Or.inr (Or.inr (Or.inl h)))))
        · exact Or.inr (Or.inr (Or.inr (Or.inr (Or.inr (Or.inr (Or.inr h))))))
  · intro attempt name msg d hstep
    have := innerCatchStep_retry_classify attempt name msg d hstep
    rcases this with h | h
    · exact Or.inl (eq_of_beq h)
    · exact Or.inr h

/-- C5 counterexample: an HTTP 400 whose error body is the string `"503"`
*is* retried — the thrown message `Strapi upload error (400): 503` matches
the inner catch's `includes('503')` test — so the loop runs all three
attempts and sleeps twice, where the claim demands an immediate null after
one attempt. -/
theorem c5_terminal_400_counterexample :
    uploadRetryOutcome (fun _ => .httpResponse 400 "503" []) =
      ⟨none, [3000, 6000], 3⟩ ∧
    (⟨none, [3000, 6000], 3⟩ : UploadOutcome) ≠ ⟨none, [], 1⟩ := by
  constructor
  · decide
  · decide

/-- C5 witness: the amended statement at a clean `"Bad Request"` body. -/
theorem c5_terminal_400_witness :
    uploadRetryOutcome (fun _ => .httpResponse 400 "Bad Request" []) =
      ⟨none, [], 1⟩ :=
  c5_terminal_400.1 (fun _ => .httpResponse 400 "Bad Request" []) "Bad Request"
    rfl (by decide) (by decide) (by decide) (by decide) (by decide) (by decide) (by decide)

/-! ### Converter helper lemmas -/

lemma processChildren_append (map : List (String × AssetInfo)) (l₁ l₂ : List RTNode) :
    processChildren map (l₁ ++ l₂) = processChildren map l₁ ++ processChildren map l₂ := by
  induction l₁ with
  | nil => simp [processChildren]
  | cons n rest ih =>
    simp [processChildren, ih]

/-- C8: an embedded-media block whose asset id is absent from the resolved
map, or resolves to an entry without a non-empty destination url, emits
nothing, and converting a document containing that block yields exactly the
conversion of the document without it — the rest still succeeds. -/
theorem c8_unresolved_media (map : List (String × AssetInfo)) (aid : String)
    (pre post : List RTNode)
    (h : ∀ info, lookupAsset map aid = some info → info.url = "") :
    processNode map (RTNode.embedded (some aid)) = [] ∧
    convertContentfulRichTextToStrapi
        (some (RTNode.document (some (pre ++ RTNode.embedded (some aid) :: post)))) map
      = convertContentfulRichTextToStrapi
          (some (RTNode.document (some (pre ++ post)))) map := by
  have hemb : processNode map (RTNode.embedded (some aid)) = [] := by
    simp only [processNode, renderEmbeddedAsset]
    cases hl : lookupAsset map aid with
    | none => rfl
    | some info =>
      have hurl : info.url = "" := h info hl
      simp [hurl]
  refine ⟨hemb, ?_⟩
  show joinSep "\n\n" (processChildren map (pre ++ RTNode.embedded (some aid) :: post))
      = joinSep "\n\n" (processChildren map (pre ++ post))
  rw [processChildren_append, processChildren_append]
  show joinSep "\n\n"
      (processChildren map pre ++
        (processNode map (RTNode.embedded (some aid)) ++ processChildren map post))
    = _
  rw [hemb, List.nil_append]

/-- C8 witness: a document `[paragraph "Hello", unresolved block, paragraph
"Bye"]` converts exactly as without the block. -/
theorem c8_unresolved_media_witness :
    processNode [] (RTNode.embedded (some "missing")) = [] ∧
    convertContentfulRichTextToStrapi
        (some (RTNode.document (some
          ([RTNode.paragraph (some [RTNode.text (some "Hello") none])] ++
            RTNode.embedded (some "missing") ::
              [RTNode.paragraph (some [RTNode.text (some "Bye") none])])))) []
      = convertContentfulRichTextToStrapi
          (some (RTNode.document (some
            ([RTNode.paragraph (some [RTNode.text (some "Hello") none])] ++
              [RTNode.paragraph (some [RTNode.text (some "Bye") none])])))) [] :=
  c8_unresolved_media [] "missing"
    [RTNode.paragraph (some [RTNode.text (some "Hello") none])]
    [RTNode.paragraph (some [RTNode.text (some "Bye") none])]
    (fun info hinfo => by simp [lookupAsset] at hinfo)

/-- The ordered-list walk emits lines whose numeric prefixes count up from
`c` by exactly one per emitted line, independent of skipped items. -/
lemma renderListItems_ordered_numbering :
    ∀ (items : List RTNode) (c i : ℕ), i < (renderListItems true items c).length →
      ∃ body, (renderListItems true items c)[i]? = some (orderedPrefix (c + i) ++ body) := by
  intro items
  induction items with
  | nil => intro c i h; simp [renderListItems] at h
  | cons item rest ih =>
    intro c i h
    cases hb : listItemBody item with
    | some body =>
      rw [renderListItems, hb] at h ⊢
      simp only [if_true] at h ⊢
      match i with
      | 0 =>
        refine ⟨body, ?_⟩
        simp [orderedPrefix]
      | Nat.succ j =>
        simp only [List.length_cons, Nat.succ_lt_succ_iff] at h
        obtain ⟨b, hbody⟩ := ih (c + 1) j h
        refine ⟨b, ?_⟩
        simpa [Nat.add_assoc, Nat.add_comm 1 j] using hbody
    | none =>
      rw [renderListItems, hb] at h ⊢
      exact ih c i h

/-- C10: inside an ordered list the counter advances only when an item emits
a line, so the emitted lines are numbered contiguously `1., 2., ...` with no
gaps; concretely, a list with an empty item and a non-list-item node between
two renderable items emits exactly `1.` and `2.`. -/
theorem c10_ordered_list_numbering :
    (∀ (items : List RTNode) (i : ℕ), i < (renderList true (some items)).length →
      ∃ body, (renderList true (some items))[i]? = some (orderedPrefix (i + 1) ++ body)) ∧
    renderList true (some
      [RTNode.listItem (some [RTNode.paragraph (some [RTNode.text (some "alpha") none])]),
       RTNode.listItem (some []),
       RTNode.other "hr",
       RTNode.listItem (some [RTNode.paragraph (some [RTNode.text (some "beta") none])])])
      = ["1. alpha", "2. beta"] := by
  constructor
  · intro items i h
    have := renderListItems_ordered_numbering items 1 i h
    simpa [renderList, Nat.add_comm 1 i] using this
  · decide

/-- C10 witness: the second emitted line of a concrete ordered list carries
the prefix `2. `. -/
theorem c10_ordered_list_numbering_witness :
    ∃ body,
      (renderList true (some
        [RTNode.listItem (some [RTNode.paragraph (some [RTNode.text (some "alpha") none])]),
         RTNode.listItem (some [RTNode.paragraph (some [RTNode.text (some "beta") none])])]))[1]?
        = some (orderedPrefix 2 ++ body) :=
  c10_ordered_list_numbering.1
    [RTNode.listItem (some [RTNode.paragraph (some [RTNode.text (some "alpha") none])]),
     RTNode.listItem (some [RTNode.paragraph (some [RTNode.text (some "beta") none])])]
    1 (by decide)

/-! ### Whitespace lemmas for C7 -/

lemma string_ext_data (a b : String) (h : a.data = b.data) : a = b :=
  congrArg String.mk h

lemma jsTrim_data (s : String) : (jsTrim s).data = List.rdropWhile jsWs (s.data.dropWhile jsWs) :=
  rfl

lemma trimChars_idem (p : Char → Bool) (l : List Char) :
    List.rdropWhile p ((List.rdropWhile p (l.dropWhile p)).dropWhile p)
      = List.rdropWhile p (l.dropWhile p) := by
  have hstep : (List.rdropWhile p (l.dropWhile p)).dropWhile p
      = List.rdropWhile p (l.dropWhile p) := by
    rcases hd : List.rdropWhile p (l.dropWhile p) with _ | ⟨c, cs⟩
    · rfl
    · obtain ⟨t, ht⟩ := List.rdropWhile_prefix p (l.dropWhile p)
      have hy : l.dropWhile p = c :: (cs ++ t) := by
        rw [← ht, hd]; rfl
      have hne : l.dropWhile p ≠ [] := by rw [hy]; exact List.cons_ne_nil _ _
      have hc : p c = false := by
        have := List.head_dropWhile_not p l hne
        simpa [hy] using this
      rw [List.dropWhile_cons, hc]
      simp
  rw [hstep]
  exact List.rdropWhile_idempotent p (l.dropWhile p)

lemma jsTrim_idem (s : String) : jsTrim (jsTrim s) = jsTrim s := by
  apply string_ext_data
  rw [jsTrim_data, jsTrim_data]
  exact trimChars_idem jsWs s.data

lemma jsTrim_empty_all_ws (s : String) (h : jsTrim s = "") : ∀ c ∈ s.data, jsWs c := by
  have hdata : List.rdropWhile jsWs (s.data.dropWhile jsWs) = [] := by
    rw [← jsTrim_data]; exact congrArg String.data h
  have h1 : ∀ x ∈ s.data.dropWhile jsWs, jsWs x := List.rdropWhile_eq_nil_iff.mp hdata
  have h2 : s.data.dropWhile jsWs = [] := by
    rcases hd : s.data.dropWhile jsWs with _ | ⟨c, cs⟩
    · rfl
    · have hne : s.data.dropWhile jsWs ≠ [] := by rw [hd]; exact List.cons_ne_nil _ _
      have hc : jsWs c = false := by
        have := List.head_dropWhile_not jsWs s.data hne
        simpa [hd] using this
      have hcc : jsWs c := h1 c (by rw [hd]; exact List.mem_cons_self _ _)
      rw [hc] at hcc
      exact absurd hcc (by simp)
  exact List.dropWhile_eq_nil_iff.mp h2

/-- C7: inside a paragraph, a fully-whitespace text run contributes exactly
one single space; a marked run contributes its delimiters hugging the
trimmed text, with the surrounding whitespace outside the delimiters; the
runs `["Hello", " ", "world"]` render as `"Hello world"`; and the bold run
`" shout "` renders as `"**shout**"`. -/
theorem c7_whitespace_and_marks :
    (∀ s : String, s ≠ "" → jsTrim s = "" →
      paragraphChildPiece (RTNode.text (some s) none) = some " ") ∧
    (∀ s : String, jsTrim s ≠ "" →
      paragraphChildPiece (RTNode.text (some s) (some [Mark.bold])) =
        some (leadingWs s ++ ("**" ++ jsTrim s ++ "**") ++ trailingWs s)) ∧
    renderParagraph (some [RTNode.text (some "Hello") none, RTNode.text (some " ") none,
      RTNode.text (some "world") none]) = some "Hello world" ∧
    renderParagraph (some [RTNode.text (some " shout ") (some [Mark.bold])]) =
      some "**shout**" := by
  refine ⟨?_, ?_, by decide, by decide⟩
  · intro s hne htrim
    have hall := jsTrim_empty_all_ws s htrim
    have hleading : leadingWs s = s := by
      unfold leadingWs
      rw [List.takeWhile_eq_self_iff.mpr hall]
    have hsne : (s == "") = false := beq_eq_false_iff_ne.mpr hne
    simp only [paragraphChildPiece, Option.getD_some, Option.getD_none, htrim, hleading, hsne]
    simp
  · intro s htrim
    have h1 : (jsTrim s == "") = false := beq_eq_false_iff_ne.mpr htrim
    have hmarks : applyMarks [Mark.bold] (jsTrim s) = "**" ++ jsTrim s ++ "**" := by
      show applyMark (jsTrim s) Mark.bold = _
      simp [applyMark, jsTrim_idem]
    simp only [paragraphChildPiece, Option.getD_some, h1, Bool.false_and, Bool.and_self,
      if_false, hmarks]
    simp

/-- C7 witness: the two universally-quantified parts at concrete strings. -/
theorem c7_whitespace_and_marks_witness :
    paragraphChildPiece (RTNode.text (some " ") none) = some " " ∧
    paragraphChildPiece (RTNode.text (some " shout ") (some [Mark.bold])) =
      some (leadingWs " shout " ++ ("**" ++ jsTrim " shout " ++ "**") ++ trailingWs " shout ") :=
  ⟨c7_whitespace_and_marks.1 " " (by decide) (by decide),
   c7_whitespace_and_marks.2.1 " shout " (by decide)⟩

end Strapi
